import Mathlib

/-!
Verification of the sound-explore audio core: spectral feature extraction,
mission classification, recording state, gain mapping, clip detection and
the PCM/WAV transcoder, shallowly embedded from the JavaScript source
(`src/audio-processor.js`, `src/audio-convert.js`).

Spectra are byte-magnitude arrays (`Uint8Array`), embedded as `List Nat`;
float arithmetic over spectrum averages is embedded as exact rational
arithmetic (`ℚ`).  JavaScript produces `NaN` when an empty list is averaged
(`0/0`) or maximised (`Math.max()` of nothing is `-Infinity`), and every
ordering comparison against `NaN` is false; the embeddings below make that
empty case explicit where the source can reach it.
-/

namespace SoundExplore

/-- One `CharacteristicSample` as produced per tick by
`getSoundCharacteristics` in `src/audio-processor.js`. -/
structure SoundCharacteristics where
  overall : ℚ
  lowAvg : ℚ
  midAvg : ℚ
  highAvg : ℚ
  dominantRange : String
deriving DecidableEq, Repr

/-- `list.reduce((a, b) => a + b, 0) / list.length` over a byte array. -/
def bandAvg (l : List Nat) : ℚ := (l.sum : ℚ) / (l.length : ℚ)

/-- Body of `getSoundCharacteristics` (src/audio-processor.js:250-264) for a
non-null `dataArray`: band slices `slice(0,50)`, `slice(50,200)`,
`slice(200,512)`, per-band and overall averages, and the dominant range
computed by two sequential non-exclusive `if` statements:
`let dominantRange = 'mid'; if (lowAvg === maxBand) dominantRange = 'low';
if (highAvg === maxBand) dominantRange = 'high';`. -/
def soundCharacteristicsOf (data : List Nat) : SoundCharacteristics :=
  let lowBand := data.take 50
  let midBand := (data.drop 50).take 150
  let highBand := (data.drop 200).take 312
  let lowAvg := bandAvg lowBand
  let midAvg := bandAvg midBand
  let highAvg := bandAvg highBand
  let overall := bandAvg data
  let maxBand := max lowAvg (max midAvg highAvg)
  let d0 := "mid"
  let d1 := if lowAvg = maxBand then "low" else d0
  let d2 := if highAvg = maxBand then "high" else d1
  { overall := overall, lowAvg := lowAvg, midAvg := midAvg,
    highAvg := highAvg, dominantRange := d2 }

/-- `getSoundCharacteristics`: returns `null` when `this.dataArray` was never
initialised, otherwise the computed characteristics. -/
def getSoundCharacteristics (dataArray : Option (List Nat)) :
    Option SoundCharacteristics :=
  match dataArray with
  | none => none
  | some data => some (soundCharacteristicsOf data)

/-- Spec-side reformulation of the tie-break actually implemented: the high
band wins every tie it participates in, then the low band, and mid is the
fallback (priority high > low > mid). -/
def dominantRangeSpec (lowAvg midAvg highAvg : ℚ) : String :=
  if midAvg ≤ highAvg ∧ lowAvg ≤ highAvg then "high"
  else if midAvg ≤ lowAvg ∧ highAvg ≤ lowAvg then "low"
  else "mid"

/-- One mission rule: an id plus its predicate over the accumulated
characteristics sequence.  In the source each rule also carries a name,
description and icon, which the classification logic never reads. -/
structure MissionRule where
  id : String
  check : List SoundCharacteristics → Bool

/-- `arr.reduce((a, b) => a + b, 0) / arr.length` over rationals. -/
def listAvg (l : List ℚ) : ℚ := l.sum / (l.length : ℚ)

/-- `quiet-quest` (src/audio-processor.js:296-305): average overall volume
below 50.  JS yields `0/0 = NaN` on an empty sequence and `NaN < 50` is
false, so the empty case is written out. -/
def quietQuest : MissionRule where
  id := "quiet-quest"
  check := fun chars =>
    if chars.isEmpty then false
    else decide (listAvg (chars.map SoundCharacteristics.overall) < 50)

/-- `big-boom`: maximum overall volume above 150.  `Math.max()` of an empty
spread is `-Infinity` and `-Infinity > 150` is false. -/
def bigBoom : MissionRule where
  id := "big-boom"
  check := fun chars =>
    match chars.map SoundCharacteristics.overall with
    | [] => false
    | v :: vs => decide (150 < vs.foldl max v)

/-- `steady-sound`: at least 10 samples, variance of overall below 500 and
mean above 30. -/
def steadySound : MissionRule where
  id := "steady-sound"
  check := fun chars =>
    if chars.length < 10 then false
    else
      let volumes := chars.map SoundCharacteristics.overall
      let avg := listAvg volumes
      let variance := listAvg (volumes.map (fun v => (v - avg) ^ 2))
      decide (variance < 500 ∧ 30 < avg)

/-- Peak counter of `pattern-pro`: for each interior index `i`,
`volumes[i] > threshold * 1.2 && volumes[i] > volumes[i-1] &&
volumes[i] > volumes[i+1]`. -/
def countPeaks (threshold : ℚ) : List ℚ → Nat
  | a :: b :: c :: rest =>
      (if threshold * (12 / 10) < b ∧ a < b ∧ c < b then 1 else 0) +
        countPeaks threshold (b :: c :: rest)
  | _ => 0

/-- `pattern-pro`: at least 15 samples and at least 3 local maxima of overall
exceeding 1.2 times the sequence mean. -/
def patternPro : MissionRule where
  id := "pattern-pro"
  check := fun chars =>
    if chars.length < 15 then false
    else
      let volumes := chars.map SoundCharacteristics.overall
      let threshold := listAvg volumes
      decide (3 ≤ countPeaks threshold volumes)

/-- `rumble-ranger`: mean low-band average above 50 and exceeding 1.3 times
the mean high-band average.  Empty sequence gives `NaN` comparisons, false. -/
def rumbleRanger : MissionRule where
  id := "rumble-ranger"
  check := fun chars =>
    if chars.isEmpty then false
    else
      let avgLow := listAvg (chars.map SoundCharacteristics.lowAvg)
      let avgHigh := listAvg (chars.map SoundCharacteristics.highAvg)
      decide (50 < avgLow ∧ avgHigh * (13 / 10) < avgLow)

/-- `chirp-chaser`: symmetric condition on the high band versus the low. -/
def chirpChaser : MissionRule where
  id := "chirp-chaser"
  check := fun chars =>
    if chars.isEmpty then false
    else
      let avgHigh := listAvg (chars.map SoundCharacteristics.highAvg)
      let avgLow := listAvg (chars.map SoundCharacteristics.lowAvg)
      decide (50 < avgHigh ∧ avgLow * (13 / 10) < avgHigh)

/-- The mission list in its source order (src/audio-processor.js:295-372). -/
def missions : List MissionRule :=
  [quietQuest, bigBoom, steadySound, patternPro, rumbleRanger, chirpChaser]

/-- Selection core of `checkMissions` (src/audio-processor.js:653-680): walk
the rules in order, `continue` past any rule whose id is in
`completedMissions`, and `break` at the first remaining rule whose `check`
holds; the surrounding code then awards exactly that rule (pushes its id and
shows its popup) or nothing. -/
def checkMissions (completedMissions : List String)
    (chars : List SoundCharacteristics) : List MissionRule → Option MissionRule
  | [] => none
  | m :: rest =>
    if completedMissions.contains m.id then checkMissions completedMissions chars rest
    else if m.check chars then some m
    else checkMissions completedMissions chars rest

/-- A concrete silent characteristics sample, used for witnesses. -/
def cQuiet : SoundCharacteristics :=
  { overall := 0, lowAvg := 0, midAvg := 0, highAvg := 0, dominantRange := "mid" }

/-- The sequential non-exclusive `if` pair of the source equals the
high > low > mid priority selection. -/
lemma max_tiebreak (l m h : ℚ) :
    (if h = max l (max m h) then "high" else if l = max l (max m h) then "low" else "mid")
      = dominantRangeSpec l m h := by
  have hiff : (h = max l (max m h)) ↔ (m ≤ h ∧ l ≤ h) := by
    constructor
    · intro e
      have hle : max l (max m h) ≤ h := le_of_eq e.symm
      rw [max_le_iff, max_le_iff] at hle
      exact ⟨hle.2.1, hle.1⟩
    · rintro ⟨h1, h2⟩
      rw [max_eq_right h1, max_eq_right h2]
  have liff : (l = max l (max m h)) ↔ (m ≤ l ∧ h ≤ l) := by
    constructor
    · intro e
      have hle : max l (max m h) ≤ l := le_of_eq e.symm
      rw [max_le_iff, max_le_iff] at hle
      exact hle.2
    · rintro ⟨h1, h2⟩
      rw [max_eq_left (max_le h1 h2)]
  simp only [dominantRangeSpec, hiff, liff]

/-- C1 (amended): `dominantRange` is the band with the strictly largest
average, but ties are broken in the priority order high > low > mid (the
result is "mid" only when mid strictly exceeds both); in particular a 512-bin
spectrum with every bin equal to 200 yields `dominantRange = "high"`. -/
theorem dominantRange_high_priority :
    (∀ data : List Nat,
      (soundCharacteristicsOf data).dominantRange =
        dominantRangeSpec (soundCharacteristicsOf data).lowAvg
          (soundCharacteristicsOf data).midAvg (soundCharacteristicsOf data).highAvg) ∧
    (soundCharacteristicsOf (List.replicate 512 200)).dominantRange = "high" := by
  constructor
  · intro data
    simp only [soundCharacteristicsOf]
    exact max_tiebreak _ _ _
  · simp only [soundCharacteristicsOf, bandAvg, List.take_replicate,
      List.drop_replicate, List.sum_replicate, List.length_replicate]
    norm_num

/-- C1 counterexample: on the 512-bin spectrum with every bin equal to 200
(all three band averages equal), `getSoundCharacteristics` reports
`dominantRange = "high"`, not the claimed `"mid"`. -/
theorem dominantRange_all200_cex :
    (getSoundCharacteristics (some (List.replicate 512 200))).map
        SoundCharacteristics.dominantRange ≠ some "mid" ∧
    (getSoundCharacteristics (some (List.replicate 512 200))).map
        SoundCharacteristics.dominantRange = some "high" := by
  have hdr : (soundCharacteristicsOf (List.replicate 512 200)).dominantRange = "high" := by
    simp only [soundCharacteristicsOf, bandAvg, List.take_replicate,
      List.drop_replicate, List.sum_replicate, List.length_replicate]
    norm_num
  constructor
  · simp only [getSoundCharacteristics, Option.map_some']
    rw [hdr]
    simp
  · simp only [getSoundCharacteristics, Option.map_some']
    rw [hdr]

/-- C2: the classifier walks any rule list in order, skips exactly the rules
whose ids are already completed, and returns the first remaining rule whose
predicate holds over the full sequence; when it returns a rule, every earlier
rule in the list is either completed or non-matching, and when it returns
nothing, no non-completed rule matches at all. -/
theorem checkMissions_first_match (rules : List MissionRule)
    (completedMissions : List String) (chars : List SoundCharacteristics) :
    (∀ m, checkMissions completedMissions chars rules = some m →
        completedMissions.contains m.id = false ∧ m.check chars = true ∧
        ∃ pre post, rules = pre ++ m :: post ∧
          ∀ r ∈ pre, completedMissions.contains r.id = true ∨ r.check chars = false) ∧
    (checkMissions completedMissions chars rules = none →
        ∀ r ∈ rules, completedMissions.contains r.id = true ∨ r.check chars = false) := by
  induction rules with
  | nil =>
    refine ⟨fun m hm => by simp [checkMissions] at hm,
      fun _ r hr => absurd hr (List.not_mem_nil r)⟩
  | cons m rest ih =>
    cases hcv : completedMissions.contains m.id with
    | true =>
      refine ⟨fun m' hm' => ?_, fun hn r hr => ?_⟩
      · rw [checkMissions, if_pos (by rw [hcv])] at hm'
        obtain ⟨h1, h2, pre, post, hsplit, hpre⟩ := ih.1 m' hm'
        refine ⟨h1, h2, m :: pre, post, by rw [hsplit, List.cons_append], fun r hr => ?_⟩
        rcases List.mem_cons.mp hr with rfl | hr'
        · exact Or.inl hcv
        · exact hpre r hr'
      · rw [checkMissions, if_pos (by rw [hcv])] at hn
        rcases List.mem_cons.mp hr with rfl | hr'
        · exact Or.inl hcv
        · exact ih.2 hn r hr'
    | false =>
      have hcs : ¬ (completedMissions.contains m.id = true) := by rw [hcv]; simp
      cases hkv : m.check chars with
      | true =>
        refine ⟨fun m' hm' => ?_, fun hn => ?_⟩
        · rw [checkMissions, if_neg hcs, if_pos (by rw [hkv])] at hm'
          injection hm' with he
          subst he
          exact ⟨hcv, hkv, [], rest, rfl, by simp⟩
        · rw [checkMissions, if_neg hcs, if_pos (by rw [hkv])] at hn
          cases hn
      | false =>
        have hks : ¬ (m.check chars = true) := by rw [hkv]; simp
        refine ⟨fun m' hm' => ?_, fun hn r hr => ?_⟩
        · rw [checkMissions, if_neg hcs, if_neg hks] at hm'
          obtain ⟨h1, h2, pre, post, hsplit, hpre⟩ := ih.1 m' hm'
          refine ⟨h1, h2, m :: pre, post, by rw [hsplit, List.cons_append], fun r hr => ?_⟩
          rcases List.mem_cons.mp hr with rfl | hr'
          · exact Or.inr hkv
          · exact hpre r hr'
        · rw [checkMissions, if_neg hcs, if_neg hks] at hn
          rcases List.mem_cons.mp hr with rfl | hr'
          · exact Or.inr hkv
          · exact ih.2 hn r hr'

/-- Witness for C2: on a one-sample silent sequence with nothing completed,
the classifier returns `quiet-quest`, the first rule of the list, and the
first-match characterisation instantiates there. -/
theorem checkMissions_first_match_witness :
    ([] : List String).contains quietQuest.id = false ∧
    quietQuest.check [cQuiet] = true ∧
    ∃ pre post, missions = pre ++ quietQuest :: post ∧
      ∀ r ∈ pre, ([] : List String).contains r.id = true ∨ r.check [cQuiet] = false :=
  (checkMissions_first_match missions [] [cQuiet]).1 quietQuest
    (by norm_num [checkMissions, missions, quietQuest, cQuiet, listAvg])

/-- C7: the classifier awards nothing on the empty characteristics sequence
(whatever is already completed), and a sequence shorter than a rule's minimum
length makes that rule's predicate false rather than throw: `steady-sound`
needs at least 10 samples and `pattern-pro` at least 15. -/
theorem classifier_degenerate (completedMissions : List String)
    (chars : List SoundCharacteristics) :
    checkMissions completedMissions [] missions = none ∧
    (chars.length < 10 → steadySound.check chars = false) ∧
    (chars.length < 15 → patternPro.check chars = false) := by
  refine ⟨?_, fun h => ?_, fun h => ?_⟩
  · simp [checkMissions, missions, quietQuest, bigBoom, steadySound, patternPro,
      rumbleRanger, chirpChaser, ite_self]
  · simp [steadySound, h]
  · simp [patternPro, h]

/-- Witness for C7 at the empty sequence and a 5-sample sequence. -/
theorem classifier_degenerate_witness :
    checkMissions [] [] missions = none ∧
    steadySound.check (List.replicate 5 cQuiet) = false ∧
    patternPro.check (List.replicate 5 cQuiet) = false :=
  ⟨(classifier_degenerate [] []).1,
   (classifier_degenerate [] (List.replicate 5 cQuiet)).2.1 (by simp),
   (classifier_degenerate [] (List.replicate 5 cQuiet)).2.2 (by simp)⟩

/-! ## PCM/WAV transcoder (src/audio-convert.js) -/

/-- Truncation toward zero, as `DataView.setInt16` applies to a non-integral
number (ECMAScript `ToIntegerOrInfinity` before the 16-bit wrap). -/
def truncToward0 (q : ℚ) : Int := if q < 0 then ⌈q⌉ else ⌊q⌋

/-- `Math.max(-1, Math.min(1, tmp[i]))` (src/audio-convert.js:23). -/
def clampSample (x : ℚ) : ℚ := max (-1) (min 1 x)

/-- `s < 0 ? s * 0x8000 : s * 0x7fff` truncated to the stored 16-bit signed
integer (src/audio-convert.js:24). -/
def quantizeSample (x : ℚ) : Int :=
  let s := clampSample x
  if s < 0 then truncToward0 (s * 32768) else truncToward0 (s * 32767)

lemma ceil_intQ (z : ℤ) : ⌈(z : ℚ)⌉ = z := Int.ceil_intCast z

lemma floor_intQ (z : ℤ) : ⌊(z : ℚ)⌋ = z := Int.floor_intCast z

/-- C3: quantization clamps to [-1, 1], scales negatives by 32768 and
non-negatives by 32767, truncates, maps -1.0 to -32768 and +1.0 to 32767,
and never leaves the signed 16-bit range on any input. -/
theorem quantize_extremes_and_bounds :
    quantizeSample (-1) = -32768 ∧ quantizeSample 1 = 32767 ∧
    ∀ x : ℚ, -32768 ≤ quantizeSample x ∧ quantizeSample x ≤ 32767 := by
  refine ⟨?_, ?_, fun x => ?_⟩
  · norm_num [quantizeSample, clampSample, truncToward0]
    exact_mod_cast ceil_intQ (-32768)
  · norm_num [quantizeSample, clampSample, truncToward0]
  · have hlo : (-1 : ℚ) ≤ clampSample x := le_max_left _ _
    have hhi : clampSample x ≤ 1 := max_le (by norm_num) (min_le_left _ _)
    unfold quantizeSample
    by_cases hs : clampSample x < 0
    · rw [if_pos hs]
      have h1 : (-32768 : ℚ) ≤ clampSample x * 32768 := by nlinarith
      have h2 : clampSample x * 32768 ≤ 0 := by nlinarith
      have hq : truncToward0 (clampSample x * 32768) = ⌈clampSample x * 32768⌉ := by
        by_cases hz : clampSample x * 32768 < 0
        · rw [truncToward0, if_pos hz]
        · have h0 : clampSample x * 32768 = 0 := le_antisymm h2 (not_lt.mp hz)
          rw [truncToward0, if_neg hz, h0]
          norm_num
      rw [hq]
      constructor
      · calc (-32768 : ℤ) = ⌈(-32768 : ℚ)⌉ := by exact_mod_cast (ceil_intQ (-32768)).symm
          _ ≤ ⌈clampSample x * 32768⌉ := Int.ceil_le_ceil h1
      · calc ⌈clampSample x * 32768⌉ ≤ ⌈(0 : ℚ)⌉ := Int.ceil_le_ceil h2
          _ ≤ 32767 := by norm_num
    · rw [if_neg hs]
      have hs0 : 0 ≤ clampSample x := not_lt.mp hs
      have h1 : (0 : ℚ) ≤ clampSample x * 32767 := by nlinarith
      have h2 : clampSample x * 32767 ≤ 32767 := by nlinarith
      have hq : truncToward0 (clampSample x * 32767) = ⌊clampSample x * 32767⌋ := by
        rw [truncToward0, if_neg (not_lt.mpr h1)]
      rw [hq]
      constructor
      · calc (-32768 : ℤ) ≤ ⌊(0 : ℚ)⌋ := by norm_num
          _ ≤ ⌊clampSample x * 32767⌋ := Int.floor_le_floor h1
      · calc ⌊clampSample x * 32767⌋ ≤ ⌊(32767 : ℚ)⌋ := Int.floor_le_floor h2
          _ = 32767 := by exact_mod_cast floor_intQ 32767

/-- Two bytes of `DataView.setUint16(offset, n, true)`: low byte first. -/
def u16le (n : Nat) : List Nat := [n % 256, n / 256 % 256]

/-- Four bytes of `DataView.setUint32(offset, n, true)`: least significant
byte first (the stored value is the argument taken mod 2^32). -/
def u32le (n : Nat) : List Nat :=
  [n % 256, n / 256 % 256, n / 65536 % 256, n / 16777216 % 256]

/-- Two bytes of `DataView.setInt16(offset, s, true)`: the two's-complement
wrap of `s` mod 2^16, little-endian. -/
def i16le (s : Int) : List Nat := u16le (s % 65536).toNat

/-- `writeString`: one byte per character code (src/audio-convert.js:15). -/
def asciiBytes (s : String) : List Nat := s.data.map Char.toNat

/-- The data section: each sample written by `setInt16` at consecutive even
offsets from 44 (src/audio-convert.js:21-26). -/
def pcmBytes : List Int → List Nat
  | [] => []
  | s :: rest => i16le s ++ pcmBytes rest

/-- The full container written by `convertBlobToWav` for a mono 16-bit
buffer: the writes at offsets 0,4,8,...,40 are consecutive, so the buffer is
their concatenation (src/audio-convert.js:13-26). -/
def wavBytes (sampleRate : Nat) (samples : List Int) : List Nat :=
  asciiBytes "RIFF" ++ u32le (36 + samples.length * 2) ++ asciiBytes "WAVE" ++
  asciiBytes "fmt " ++ u32le 16 ++ u16le 1 ++ u16le 1 ++ u32le sampleRate ++
  u32le (sampleRate * 2) ++ u16le 2 ++ u16le 16 ++
  asciiBytes "data" ++ u32le (samples.length * 2) ++ pcmBytes samples

lemma asciiBytes_RIFF : asciiBytes "RIFF" = [82, 73, 70, 70] := rfl

lemma asciiBytes_WAVE : asciiBytes "WAVE" = [87, 65, 86, 69] := rfl

lemma asciiBytes_fmt : asciiBytes "fmt " = [102, 109, 116, 32] := rfl

lemma asciiBytes_data : asciiBytes "data" = [100, 97, 116, 97] := rfl

lemma pcmBytes_length (l : List Int) : (pcmBytes l).length = 2 * l.length := by
  induction l with
  | nil => rfl
  | cons s rest ih => simp [pcmBytes, i16le, u16le, ih]; omega

lemma wavBytes_eq (sampleRate : Nat) (samples : List Int) :
    wavBytes sampleRate samples =
      82 :: 73 :: 70 :: 70 ::
      ((36 + samples.length * 2) % 256) :: ((36 + samples.length * 2) / 256 % 256) ::
      ((36 + samples.length * 2) / 65536 % 256) :: ((36 + samples.length * 2) / 16777216 % 256) ::
      87 :: 65 :: 86 :: 69 :: 102 :: 109 :: 116 :: 32 ::
      16 :: 0 :: 0 :: 0 :: 1 :: 0 :: 1 :: 0 ::
      (sampleRate % 256) :: (sampleRate / 256 % 256) ::
      (sampleRate / 65536 % 256) :: (sampleRate / 16777216 % 256) ::
      (sampleRate * 2 % 256) :: (sampleRate * 2 / 256 % 256) ::
      (sampleRate * 2 / 65536 % 256) :: (sampleRate * 2 / 16777216 % 256) ::
      2 :: 0 :: 16 :: 0 ::
      100 :: 97 :: 116 :: 97 ::
      (samples.length * 2 % 256) :: (samples.length * 2 / 256 % 256) ::
      (samples.length * 2 / 65536 % 256) :: (samples.length * 2 / 16777216 % 256) ::
      pcmBytes samples := by
  simp [wavBytes, asciiBytes_RIFF, asciiBytes_WAVE, asciiBytes_fmt, asciiBytes_data,
    u32le, u16le]

/-- C4: for every sample rate and mono 16-bit sample list of length N the
emitted container has exactly 44 + 2N bytes, a byte-exact little-endian
header ("RIFF", chunk size 36 + 2N, "WAVE", "fmt " of size 16, PCM format 1,
1 channel, the sample rate, byte rate 2 x sample rate, block align 2, 16 bits
per sample, "data" of size 2N), followed by the little-endian samples. -/
theorem wav_container_layout (sampleRate : Nat) (samples : List Int) :
    (wavBytes sampleRate samples).length = 44 + 2 * samples.length ∧
    (wavBytes sampleRate samples).take 4 = [82, 73, 70, 70] ∧
    ((wavBytes sampleRate samples).drop 4).take 4 = u32le (36 + 2 * samples.length) ∧
    ((wavBytes sampleRate samples).drop 8).take 4 = [87, 65, 86, 69] ∧
    ((wavBytes sampleRate samples).drop 12).take 4 = [102, 109, 116, 32] ∧
    ((wavBytes sampleRate samples).drop 16).take 4 = u32le 16 ∧
    ((wavBytes sampleRate samples).drop 20).take 2 = u16le 1 ∧
    ((wavBytes sampleRate samples).drop 22).take 2 = u16le 1 ∧
    ((wavBytes sampleRate samples).drop 24).take 4 = u32le sampleRate ∧
    ((wavBytes sampleRate samples).drop 28).take 4 = u32le (sampleRate * 2) ∧
    ((wavBytes sampleRate samples).drop 32).take 2 = u16le 2 ∧
    ((wavBytes sampleRate samples).drop 34).take 2 = u16le 16 ∧
    ((wavBytes sampleRate samples).drop 36).take 4 = [100, 97, 116, 97] ∧
    ((wavBytes sampleRate samples).drop 40).take 4 = u32le (2 * samples.length) ∧
    (wavBytes sampleRate samples).drop 44 = pcmBytes samples := by
  rw [wavBytes_eq]
  refine ⟨?_, rfl, ?_, rfl, rfl, rfl, rfl, rfl, rfl, rfl, rfl, rfl, rfl, ?_, rfl⟩
  · simp [pcmBytes_length]
    omega
  · rw [Nat.mul_comm 2 samples.length]
    rfl
  · rw [Nat.mul_comm 2 samples.length]
    rfl

/-! ## Gain control (src/audio-processor.js:87-96) -/

/-- `setGain`: `v = Math.max(0.1, parseFloat(value) || 1)` followed by
`mapped = Math.min(10, Math.sqrt(v) * 1.5)`.  The `|| 1` fallback replaces a
zero (or unparsable) control value by 1 before the curve is applied. -/
noncomputable def setGain (value : ℚ) : ℝ :=
  let v : ℝ := max (1 / 10) (if value = 0 then 1 else (value : ℝ))
  min 10 (Real.sqrt v * (3 / 2))

/-- C5 counterexample: on the 0-100 control range monotonicity fails at the
left end, because the `|| 1` fallback maps 0 to the multiplier for 1:
`setGain 0 = 1.5` while `setGain 0.25 = 0.75`. -/
theorem setGain_not_monotone_cex :
    (0 : ℚ) ≤ 1 / 4 ∧ setGain (1 / 4) < setGain 0 := by
  have h0 : setGain 0 = 3 / 2 := by
    rw [setGain]
    norm_num
  have hs4 : Real.sqrt 4 = 2 := by
    rw [show (4 : ℝ) = 2 ^ 2 by norm_num, Real.sqrt_sq (by norm_num : (0 : ℝ) ≤ 2)]
  have h14 : setGain (1 / 4) = 3 / 4 := by
    rw [setGain]
    norm_num
    rw [hs4, show ((2 : ℝ))⁻¹ * (3 / 2) = 3 / 4 by norm_num]
    exact min_eq_right (by norm_num : (3 / 4 : ℝ) ≤ 10)
  refine ⟨by norm_num, ?_⟩
  rw [h0, h14]
  norm_num

/-- C5 (amended): the multiplier is monotone over strictly positive control
values (the zero fallback breaks it only at 0), and for every control value
it stays within [0, 10]. -/
theorem setGain_monotone_bounded :
    (∀ a b : ℚ, 0 < a → a ≤ b → setGain a ≤ setGain b) ∧
    (∀ v : ℚ, 0 ≤ setGain v ∧ setGain v ≤ 10) := by
  constructor
  · intro a b ha hab
    have ha' : a ≠ 0 := ne_of_gt ha
    have hb' : b ≠ 0 := ne_of_gt (lt_of_lt_of_le ha hab)
    simp only [setGain, if_neg ha', if_neg hb']
    have hcast : (a : ℝ) ≤ (b : ℝ) := by exact_mod_cast hab
    gcongr
  · intro v
    simp only [setGain]
    refine ⟨le_min (by norm_num) ?_, min_le_left _ _⟩
    positivity

/-- Witness for the amended C5 at control values 1, 4 and 2. -/
theorem setGain_monotone_bounded_witness :
    setGain 1 ≤ setGain 4 ∧ (0 ≤ setGain 2 ∧ setGain 2 ≤ 10) :=
  ⟨setGain_monotone_bounded.1 1 4 (by norm_num) (by norm_num),
   setGain_monotone_bounded.2 2⟩

/-! ## Clip detection (src/audio-processor.js:139-141) -/

/-- `Math.max(...this.dataArray)` over the byte spectrum (0 for an empty
spread, where JS gives `-Infinity`; both fail the threshold test). -/
def maxBin (spectrum : List Nat) : Nat := spectrum.foldr max 0

/-- `const isClipping = maxValue >= 250;` — the near-ceiling threshold is the
fixed constant 250. -/
def isClipping (spectrum : List Nat) : Bool := decide (250 ≤ maxBin spectrum)

lemma le_maxBin_iff (n : Nat) (hn : 0 < n) (l : List Nat) :
    n ≤ maxBin l ↔ ∃ b ∈ l, n ≤ b := by
  induction l with
  | nil =>
    simp [maxBin]
    omega
  | cons a t ih =>
    simp only [maxBin, List.foldr_cons] at ih ⊢
    constructor
    · intro h
      rcases le_max_iff.mp h with h1 | h2
      · exact ⟨a, List.mem_cons_self a t, h1⟩
      · obtain ⟨b, hb, hnb⟩ := ih.mp h2
        exact ⟨b, List.mem_cons_of_mem a hb, hnb⟩
    · rintro ⟨b, hb, hnb⟩
      rcases List.mem_cons.mp hb with rfl | hb'
      · exact le_max_iff.mpr (Or.inl hnb)
      · exact le_max_iff.mpr (Or.inr (ih.mpr ⟨b, hb', hnb⟩))

lemma maxBin_replicate_succ (m k : Nat) : maxBin (List.replicate (m + 1) k) = k := by
  induction m with
  | zero => simp [maxBin]
  | succ m ih =>
    rw [List.replicate_succ, maxBin, List.foldr_cons, ← maxBin, ih]
    exact max_self k

/-- C8 counterexample: a 512-bin spectrum whose maximum bin is 245 is NOT
flagged as clipping (the implemented threshold is 250, not the claimed
240). -/
theorem isClipping_cex_245 : isClipping (List.replicate 512 245) = false := by
  rw [isClipping, maxBin_replicate_succ 511 245]
  rfl

/-- C8 (amended): `isClipping` is true exactly when some bin — equivalently
the maximum bin — is at or above the fixed near-ceiling threshold 250 (below
the maximum representable 255); max bins of 245 and 235 are not clipping,
while 252 is. -/
theorem isClipping_threshold :
    (∀ spectrum : List Nat, isClipping spectrum = true ↔ ∃ b ∈ spectrum, 250 ≤ b) ∧
    isClipping (List.replicate 512 245) = false ∧
    isClipping (List.replicate 512 235) = false ∧
    isClipping (List.replicate 512 252) = true := by
  refine ⟨fun spectrum => ?_,
    by rw [isClipping, maxBin_replicate_succ 511 245]; rfl,
    by rw [isClipping, maxBin_replicate_succ 511 235]; rfl,
    by rw [isClipping, maxBin_replicate_succ 511 252]; rfl⟩
  rw [isClipping, decide_eq_true_eq]
  exact le_maxBin_iff 250 (by norm_num) spectrum

/-! ## Recording session state (src/audio-processor.js:193-215) -/

/-- The two `MediaRecorder` states the recording logic distinguishes:
`state === 'recording'` or not (inactive/terminal). -/
inductive RecState
  | inactive
  | recording
deriving DecidableEq

/-- One encoded audio fragment delivered by the capture primitive. -/
structure Chunk where
  size : Nat
  payload : Nat
deriving DecidableEq

/-- The recorder-facing state of the processor: the `MediaRecorder` state and
the accumulated `recordedChunks` list. -/
structure RecorderModel where
  recState : RecState
  recordedChunks : List Chunk
deriving DecidableEq

/-- `ondataavailable` handler (src/audio-processor.js:70-72): push the chunk
only when `event.data.size > 0`. -/
def handleDataAvailable (s : RecorderModel) (c : Chunk) : RecorderModel :=
  if 0 < c.size then { s with recordedChunks := s.recordedChunks ++ [c] } else s

/-- `startRecording` (src/audio-processor.js:193-199): clear the chunk list,
then start the recorder unless it is already recording; either way the
recorder ends in the recording state with an empty chunk list. -/
def startRecording (_s : RecorderModel) : RecorderModel :=
  { recState := RecState.recording, recordedChunks := [] }

/-- `stopRecording` (src/audio-processor.js:201-215): when recording, `stop()`
flushes the final data events and `onstop` resolves with a Blob of the
accumulated chunks; otherwise the promise resolves immediately with a Blob of
the chunks accumulated so far and nothing changes.  The resolved Blob is
modelled as its list of chunk parts. -/
def stopRecording (finalEvents : List Chunk) (s : RecorderModel) :
    List Chunk × RecorderModel :=
  if s.recState = RecState.recording then
    let s' := finalEvents.foldl handleDataAvailable s
    (s'.recordedChunks,
     { recState := RecState.inactive, recordedChunks := s'.recordedChunks })
  else
    (s.recordedChunks, s)

/-- C6: in a non-recording state `stopRecording` resolves with the container
of the accumulated (possibly empty) chunks, changes nothing, and a second
call returns the same container without re-finalizing. -/
theorem stopRecording_idempotent (s : RecorderModel) (p p' : List Chunk)
    (h : s.recState ≠ RecState.recording) :
    (stopRecording p s).1 = s.recordedChunks ∧
    (stopRecording p s).2 = s ∧
    (stopRecording p' (stopRecording p s).2).1 = (stopRecording p s).1 := by
  rw [stopRecording, if_neg h]
  exact ⟨rfl, rfl, by rw [stopRecording, if_neg h]⟩

/-- Witness for C6 at an inactive recorder holding one chunk. -/
theorem stopRecording_idempotent_witness :
    (stopRecording [] ⟨RecState.inactive, [⟨3, 7⟩]⟩).1 = [⟨3, 7⟩] ∧
    (stopRecording [] ⟨RecState.inactive, [⟨3, 7⟩]⟩).2 = ⟨RecState.inactive, [⟨3, 7⟩]⟩ ∧
    (stopRecording [⟨1, 1⟩] (stopRecording [] ⟨RecState.inactive, [⟨3, 7⟩]⟩).2).1 =
      (stopRecording [] ⟨RecState.inactive, [⟨3, 7⟩]⟩).1 :=
  stopRecording_idempotent ⟨RecState.inactive, [⟨3, 7⟩]⟩ [] [⟨1, 1⟩] (by decide)

lemma foldl_handleDataAvailable (ds : List Chunk) (st : RecState) (cs : List Chunk) :
    ds.foldl handleDataAvailable ⟨st, cs⟩ =
      ⟨st, cs ++ ds.filter (fun c => 0 < c.size)⟩ := by
  induction ds generalizing cs with
  | nil => simp
  | cons d ds ih =>
    rw [List.foldl_cons, handleDataAvailable]
    by_cases hd : 0 < d.size
    · rw [if_pos hd]
      simp only [ih, List.filter_cons, if_pos (decide_eq_true hd)]
      simp [hd]
    · rw [if_neg hd]
      simp only [ih, List.filter_cons]
      simp [hd]

/-- C10: whatever chunks an earlier session left behind, `startRecording`
resets the list, so the container resolved by the following `stopRecording`
consists exactly of the (non-empty) chunks delivered after that start — never
anything from an earlier session. -/
theorem startRecording_fresh_session (s : RecorderModel) (ds pending : List Chunk) :
    (stopRecording pending (ds.foldl handleDataAvailable (startRecording s))).1 =
      (ds ++ pending).filter (fun c => 0 < c.size) := by
  rw [startRecording, foldl_handleDataAvailable]
  rw [stopRecording, if_pos rfl]
  simp [foldl_handleDataAvailable, List.filter_append]

/-- The analyser-facing state: the spectrum buffer (null until `init` ran)
and the accumulated characteristics sequence. -/
structure AnalysisState where
  dataArray : Option (List Nat)
  recordCharacteristics : List SoundCharacteristics
deriving DecidableEq

/-- `captureCharacteristic` (src/audio-processor.js:268-271): appends the
current characteristics only when `getSoundCharacteristics` returned a
(truthy) object. -/
def captureCharacteristic (s : AnalysisState) : AnalysisState :=
  match getSoundCharacteristics s.dataArray with
  | none => s
  | some c => { s with recordCharacteristics := s.recordCharacteristics ++ [c] }

/-- C9: with an uninitialised analyser buffer `getSoundCharacteristics`
returns null rather than throwing, and `captureCharacteristic` leaves the
recorded sequence (and everything else) unchanged. -/
theorem uninitialised_buffer_safe (s : AnalysisState) (h : s.dataArray = none) :
    getSoundCharacteristics s.dataArray = none ∧ captureCharacteristic s = s := by
  constructor
  · rw [h]
    rfl
  · rw [captureCharacteristic, h]
    rfl

/-- Witness for C9 at the freshly-constructed state. -/
theorem uninitialised_buffer_safe_witness :
    getSoundCharacteristics (AnalysisState.dataArray ⟨none, []⟩) = none ∧
    captureCharacteristic ⟨none, []⟩ = ⟨none, []⟩ :=
  uninitialised_buffer_safe ⟨none, []⟩ rfl

end SoundExplore
